import Mathlib

/-!
Shallow embedding of `src/stockdata.py` (class `YahooFinanceDataWarehouse`).

Modelling choices:
* A provider row (`yf.download`, Timestamp-indexed, capitalised column
  names) is `RawBar` with a calendar date as a day number `Nat`; OHLCV
  values are `Int` (their exact numeric type is irrelevant to the claims).
* Index values must be modelled with their runtime type, because line 76
  reads the stored CSV with `pd.read_csv(file_path, index_col=0)` —
  without `parse_dates` — so the stored index comes back as *strings*,
  while freshly fetched data carries *Timestamps*.  `IndexKey` is that
  sum: `.str` for a string read back from CSV, `.ts` for a Timestamp.
  `updated_df.index.duplicated(keep='last')` (line 97) compares index
  values, and a string never equals a Timestamp — exactly `IndexKey`
  equality.  An in-memory frame row is `Row` (an `IndexKey` plus OHLCV);
  a row of the CSV file on disk is `CsvRow` (a `String` key plus OHLCV).
* `dateStr` is the text a Timestamp becomes when written by `to_csv`, and
  `parseDate` is `pd.to_datetime` on that text.  Only two properties of
  date formatting are claim-relevant — distinct dates give distinct
  strings, and parsing inverts formatting — so the model uses a simple
  injective encoding with those properties.  (`pd.to_datetime` raises on
  garbage strings; the model totalises it with a default, and theorems
  only ever exercise files this program writes.)
* The file system is `Warehouse`: the configured root directory, the
  directories that exist (`os.makedirs(..., exist_ok=True)` inserts into
  it) and an association list from file path to CSV content.  Writing a
  file (`to_csv`, line 98) conses a new binding, shadowing the old one;
  `os.path.exists` / reading is `fileLookup`.
* The network is a parameter: a `Provider` maps (ticker, start, end) to
  either rows (`.ok`, possibly empty) or a raised exception (`.error`),
  which the `try/except` on lines 49-67 converts to `None` plus a printed
  message.  `datetime.today()` is passed explicitly as `today : Nat`.
* Printed output is returned as a `List String` of messages.
* `existing_df.index[-1]` (line 77) requires a nonempty frame in Python;
  it is modelled by `lastDate` with default 0, and every theorem touching
  it only ever exercises nonempty stored frames (the code itself only
  writes nonempty frames).
-/

namespace StockData

/-- One row as returned by the provider, with capitalised column names
(before the `rename` on lines 57-63) and a genuine (Timestamp) date. -/
structure RawBar where
  date : Nat
  Open : Int
  High : Int
  Low : Int
  Close : Int
  Volume : Int
deriving DecidableEq, Repr

/-- A pandas index value at runtime: a string (as read back by line 76's
`pd.read_csv` without `parse_dates`) or a Timestamp (as produced by the
provider).  Two values are equal only within the same kind. -/
inductive IndexKey where
  | str : String → IndexKey
  | ts : Nat → IndexKey
deriving DecidableEq, Repr

/-- One in-memory frame row: its index value plus the canonical
(lower-case) OHLCV columns. -/
structure Row where
  key : IndexKey
  op : Int
  high : Int
  low : Int
  close : Int
  volume : Int
deriving DecidableEq, Repr

/-- One row of the CSV file on disk: the index as written text plus the
OHLCV columns. -/
structure CsvRow where
  key : String
  op : Int
  high : Int
  low : Int
  close : Int
  volume : Int
deriving DecidableEq, Repr

/-- The text `to_csv` writes for a Timestamp of day `d`.  Stands in for
ISO date formatting: injective, and inverted by `parseDate`. -/
def dateStr (d : Nat) : String :=
  String.mk (List.replicate d 'd')

/-- Model of `pd.to_datetime` on stored index text: recover the day
number from the written form (total, with default 0 off the image). -/
def parseDate (s : String) : Nat :=
  s.length

/-- Writing an index value to CSV text (`to_csv` stringifies each index
entry; a string stays itself, a Timestamp becomes its date text). -/
def strOfKey : IndexKey → String
  | .str s => s
  | .ts d => dateStr d

/-- Model of `pd.to_datetime` on an index value (line 77): a string is
parsed, a Timestamp is already a date. -/
def toDatetime : IndexKey → Nat
  | .str s => parseDate s
  | .ts d => d

/-- Lines 57-63: rename provider columns to the canonical names.  The
frame keeps its provider DatetimeIndex, so the rows are Timestamp-keyed. -/
def renameColumns (r : RawBar) : Row :=
  ⟨.ts r.date, r.Open, r.High, r.Low, r.Close, r.Volume⟩

/-- Line 76, `pd.read_csv(file_path, index_col=0)` with NO `parse_dates`:
the index entries come back as plain strings. -/
def readCsv (csv : List CsvRow) : List Row :=
  csv.map fun c => ⟨.str c.key, c.op, c.high, c.low, c.close, c.volume⟩

/-- Lines 122-123, `pd.read_csv(..., parse_dates=True)` followed by
`pd.to_datetime(df.index)`: the index entries are parsed into genuine
dates (Timestamps). -/
def readCsvParsed (csv : List CsvRow) : List Row :=
  csv.map fun c => ⟨.ts (parseDate c.key), c.op, c.high, c.low, c.close, c.volume⟩

/-- Line 98, `updated_df.to_csv(file_path)`: each index entry is written
as text. -/
def writeCsv (df : List Row) : List CsvRow :=
  df.map fun r => ⟨strOfKey r.key, r.op, r.high, r.low, r.close, r.volume⟩

/-- The local file store plus the warehouse object: configured root
directory, existing directories, and one CSV file per path. -/
structure Warehouse where
  root_dir : String
  dirs : List String
  files : List (String × List CsvRow)
deriving DecidableEq, Repr

/-- Constructor (lines 37-39): record the root and create it. -/
def Warehouse.init (root : String) : Warehouse :=
  ⟨root, [root], []⟩

/-- Model of `os.makedirs(d, exist_ok=True)`: create `d` if missing. -/
def makedirs (d : String) (fs : Warehouse) : Warehouse :=
  if d ∈ fs.dirs then fs else { fs with dirs := d :: fs.dirs }

/-- The canonical per-symbol path `<root>/<market>/<symbol>.csv` (line 45). -/
def pathFor (root symbol market : String) : String :=
  root ++ "/" ++ market ++ "/" ++ symbol ++ ".csv"

/-- Lines 41-45, `_get_symbol_path`: ensure the market directory exists and
return the storage path. -/
def _get_symbol_path (fs : Warehouse) (symbol market : String) :
    Warehouse × String :=
  let market_dir := fs.root_dir ++ "/" ++ market
  (makedirs market_dir fs, pathFor fs.root_dir symbol market)

/-- Model of `os.path.exists` plus reading the raw file: look a path up in
the store. -/
def fileLookup (path : String) : List (String × List CsvRow) → Option (List CsvRow)
  | [] => none
  | (p, df) :: rest => if p = path then some df else fileLookup path rest

/-- Overwrite the file at `path` with the given CSV content. -/
def writeFile (path : String) (df : List CsvRow) (fs : Warehouse) : Warehouse :=
  { fs with files := (path, df) :: fs.files }

/-- Line 72 and line 105: for market `"HK"` the provider ticker is
`"{symbol}.{market}"`, otherwise the bare symbol. -/
def fullTicker (symbol market : String) : String :=
  if market = "HK" then symbol ++ "." ++ market else symbol

/-- The external provider: maps (ticker, optional start date, end date) to
rows or a raised exception. -/
def Provider : Type :=
  String → Option Nat → Nat → Except String (List RawBar)

/-- Lines 47-67, `_download_historical_data`: call the provider, rename the
columns; any exception is caught, a message is printed and `None` is
returned. -/
def _download_historical_data (symbol : String)
    (res : Except String (List RawBar)) : Option (List Row) × List String :=
  match res with
  | .ok raw => (some (raw.map renameColumns), [])
  | .error e => (none, ["Error downloading " ++ symbol ++ ": " ++ e])

/-- Line 77, `pd.to_datetime(existing_df.index[-1])`: the last row's index
value, parsed to a date (Python would raise on an empty frame; the code
never writes one). -/
def lastDate (df : List Row) : Nat :=
  toDatetime (((df.getLast?).map Row.key).getD (.str ""))

/-- Line 97, `updated_df[~updated_df.index.duplicated(keep='last')]`: keep
a row exactly when no later row carries an equal index value, preserving
row order.  Index values compare as runtime values: a stored string never
equals a fetched Timestamp. -/
def dedupKeepLast : List Row → List Row
  | [] => []
  | b :: rest =>
    if rest.any (fun c => c.key == b.key) then dedupKeepLast rest
    else b :: dedupKeepLast rest

/-- Lines 69-101, `update_historical_data`: resolve the path, read the
stored frame if any (string index!), fetch from `start = last stored date
+ 1` (or full history), merge with `concat` + keep-last dedup on index
values, write back, and report. -/
def update_historical_data (provider : Provider) (fs : Warehouse)
    (symbol market : String) (today : Nat) : Warehouse × List String :=
  let fs1 := (_get_symbol_path fs symbol market).1
  let file_path := (_get_symbol_path fs symbol market).2
  let full_symbol := fullTicker symbol market
  let existing := fileLookup file_path fs1.files
  let start_date : Option Nat :=
    match existing with
    | some csv => some (lastDate (readCsv csv) + 1)
    | none => none
  let dl := _download_historical_data full_symbol
    (provider full_symbol start_date today)
  match dl.1 with
  | some new_data =>
    if new_data.isEmpty then
      (fs1, dl.2 ++ ["No new data for " ++ symbol])
    else
      let updated_df :=
        match existing with
        | some csv => readCsv csv ++ new_data
        | none => new_data
      (writeFile file_path (writeCsv (dedupKeepLast updated_df)) fs1,
        dl.2 ++ ["Updated " ++ symbol ++ " with " ++
          toString new_data.length ++ " new records"])
  | none => (fs1, dl.2 ++ ["No new data for " ++ symbol])

/-- One intraday (minute-granularity) row, as returned by
`ticker.history(interval='1m', prepost=True)`. -/
structure MinuteBar where
  timestamp : Nat
  op : Int
  high : Int
  low : Int
  close : Int
  volume : Int
deriving DecidableEq, Repr

/-- Lines 103-116, `get_realtime_data`: pass the provider result through;
any exception is caught, a message is printed and `None` is returned.
Nothing is persisted. -/
def get_realtime_data (symbol market : String) (_period : String)
    (res : Except String (List MinuteBar)) :
    Option (List MinuteBar) × List String :=
  let _full_symbol := fullTicker symbol market
  match res with
  | .ok df => (some df, [])
  | .error e => (none, ["Error fetching realtime data: " ++ e])

/-- Lines 118-127, `get_local_data`: resolve the path; if the file exists
parse it back (dates as genuine Timestamps, lines 122-123) and return it,
otherwise report and return `None`. -/
def get_local_data (fs : Warehouse) (symbol market : String) :
    Warehouse × Option (List Row) × List String :=
  let fs1 := (_get_symbol_path fs symbol market).1
  let file_path := (_get_symbol_path fs symbol market).2
  match fileLookup file_path fs1.files with
  | some csv => (fs1, some (readCsvParsed csv), [])
  | none => (fs1, none, ["No local data found for " ++ symbol ++ " in " ++ market])

/-- The body of the `for symbol, market in zip(...)` loop (lines 131-132),
run sequentially over the zipped pair list. -/
def batch_go (provider : Provider) (today : Nat) :
    List (String × String) → Warehouse → Warehouse × List (List String)
  | [], fs => (fs, [])
  | sm :: rest, fs =>
    let r := update_historical_data provider fs sm.1 sm.2 today
    let rr := batch_go provider today rest r.1
    (rr.1, r.2 :: rr.2)

/-- Lines 129-132, `batch_update`: update each `(symbol, market)` pair of
`zip(symbol_list, markets)` in input order. -/
def batch_update (provider : Provider) (fs : Warehouse)
    (symbol_list markets : List String) (today : Nat) :
    Warehouse × List (List String) :=
  batch_go provider today (symbol_list.zip markets) fs

/-- The index column of an in-memory frame. -/
def keys (df : List Row) : List IndexKey := df.map Row.key

/-- The dates of a stored CSV file, as `pd.to_datetime` would read them. -/
def csvDates (csv : List CsvRow) : List Nat := csv.map fun c => parseDate c.key

/-- A stored file is sorted strictly ascending by date (the spec's Series
ordering invariant: ascending with unique dates). -/
def sortedAsc (csv : List CsvRow) : Prop :=
  List.Pairwise (fun a b => parseDate a.key < parseDate b.key) csv

instance (csv : List CsvRow) : Decidable (sortedAsc csv) :=
  List.instDecidablePairwise csv

/-- A fetch result is sorted strictly ascending by date. -/
def fetchSorted (raw : List RawBar) : Prop :=
  List.Pairwise (fun a b => a.date < b.date) raw

instance (raw : List RawBar) : Decidable (fetchSorted raw) :=
  List.instDecidablePairwise raw

/-- The stored series for an identifier: the file content at its canonical
path, if the file exists. -/
def storedSeries (fs : Warehouse) (symbol market : String) :
    Option (List CsvRow) :=
  fileLookup (pathFor fs.root_dir symbol market) fs.files

/-- The start date the updater passes to the provider (lines 74-80):
`pd.to_datetime` of the last stored row's index, plus one day, when the
file exists; `None` otherwise. -/
def requestedStart (fs : Warehouse) (symbol market : String) : Option Nat :=
  match storedSeries fs symbol market with
  | some csv => some (lastDate (readCsv csv) + 1)
  | none => none

/-! ### Basic facts about the embedded operations -/

lemma parseDate_dateStr (d : Nat) : parseDate (dateStr d) = d := by
  simp [parseDate, dateStr, String.length]

@[simp] lemma makedirs_files (d : String) (fs : Warehouse) :
    (makedirs d fs).files = fs.files := by
  unfold makedirs; split <;> rfl

@[simp] lemma makedirs_root (d : String) (fs : Warehouse) :
    (makedirs d fs).root_dir = fs.root_dir := by
  unfold makedirs; split <;> rfl

lemma makedirs_of_mem {d : String} {fs : Warehouse} (h : d ∈ fs.dirs) :
    makedirs d fs = fs := by
  unfold makedirs; exact if_pos h

lemma mem_dirs_makedirs (d : String) (fs : Warehouse) :
    d ∈ (makedirs d fs).dirs := by
  unfold makedirs; split
  · assumption
  · exact List.mem_cons_self _ _

@[simp] lemma _get_symbol_path_snd (fs : Warehouse) (s m : String) :
    (_get_symbol_path fs s m).2 = pathFor fs.root_dir s m := rfl

@[simp] lemma _get_symbol_path_fst (fs : Warehouse) (s m : String) :
    (_get_symbol_path fs s m).1 = makedirs (fs.root_dir ++ "/" ++ m) fs := rfl

@[simp] lemma writeFile_root (p : String) (df : List CsvRow) (fs : Warehouse) :
    (writeFile p df fs).root_dir = fs.root_dir := rfl

@[simp] lemma writeFile_dirs (p : String) (df : List CsvRow) (fs : Warehouse) :
    (writeFile p df fs).dirs = fs.dirs := rfl

/-- Unfolding of `storedSeries`. -/
lemma storedSeries_def (fs : Warehouse) (s m : String) :
    storedSeries fs s m = fileLookup (pathFor fs.root_dir s m) fs.files := rfl

/-- Folding of the `start_date` computation into `requestedStart`. -/
lemma requestedStart_fold (fs : Warehouse) (s m : String) :
    (match storedSeries fs s m with
      | some csv => some (lastDate (readCsv csv) + 1)
      | none => none) = requestedStart fs s m := rfl

/-- Case analysis of `update_historical_data`: the provider raised. -/
lemma update_of_error {p : Provider} {fs : Warehouse} {s m : String}
    {today : Nat} {e : String}
    (h : p (fullTicker s m) (requestedStart fs s m) today = .error e) :
    update_historical_data p fs s m today =
      (makedirs (fs.root_dir ++ "/" ++ m) fs,
        ["Error downloading " ++ fullTicker s m ++ ": " ++ e,
         "No new data for " ++ s]) := by
  unfold update_historical_data
  simp only [_get_symbol_path_fst, _get_symbol_path_snd, makedirs_files,
    makedirs_root]
  rw [← storedSeries_def, requestedStart_fold, h]
  rfl

/-- Case analysis of `update_historical_data`: the provider returned zero
rows. -/
lemma update_of_empty {p : Provider} {fs : Warehouse} {s m : String}
    {today : Nat}
    (h : p (fullTicker s m) (requestedStart fs s m) today = .ok []) :
    update_historical_data p fs s m today =
      (makedirs (fs.root_dir ++ "/" ++ m) fs, ["No new data for " ++ s]) := by
  unfold update_historical_data
  simp only [_get_symbol_path_fst, _get_symbol_path_snd, makedirs_files,
    makedirs_root]
  rw [← storedSeries_def, requestedStart_fold, h]
  rfl

/-- Case analysis of `update_historical_data`: nonempty fetch, no stored
file — the fetched rows are deduplicated among themselves and written. -/
lemma update_of_ok_none {p : Provider} {fs : Warehouse} {s m : String}
    {today : Nat} {raw : List RawBar}
    (hst : storedSeries fs s m = none)
    (h : p (fullTicker s m) none today = .ok raw) (hne : raw ≠ []) :
    update_historical_data p fs s m today =
      (writeFile (pathFor fs.root_dir s m)
          (writeCsv (dedupKeepLast (raw.map renameColumns)))
          (makedirs (fs.root_dir ++ "/" ++ m) fs),
        ["Updated " ++ s ++ " with " ++ toString raw.length ++
          " new records"]) := by
  unfold update_historical_data
  simp only [_get_symbol_path_fst, _get_symbol_path_snd, makedirs_files,
    makedirs_root]
  have hq : requestedStart fs s m = none := by
    unfold requestedStart; rw [hst]
  rw [← storedSeries_def, requestedStart_fold, hq, h, hst]
  simp [_download_historical_data, hne]

/-- Case analysis of `update_historical_data`: nonempty fetch with a stored
file — the string-indexed stored rows and the Timestamp-indexed fetched
rows are concatenated, deduplicated on index values and written. -/
lemma update_of_ok_some {p : Provider} {fs : Warehouse} {s m : String}
    {today : Nat} {raw : List RawBar} {csv : List CsvRow}
    (hst : storedSeries fs s m = some csv)
    (h : p (fullTicker s m) (some (lastDate (readCsv csv) + 1)) today = .ok raw)
    (hne : raw ≠ []) :
    update_historical_data p fs s m today =
      (writeFile (pathFor fs.root_dir s m)
          (writeCsv (dedupKeepLast (readCsv csv ++ raw.map renameColumns)))
          (makedirs (fs.root_dir ++ "/" ++ m) fs),
        ["Updated " ++ s ++ " with " ++ toString raw.length ++
          " new records"]) := by
  unfold update_historical_data
  simp only [_get_symbol_path_fst, _get_symbol_path_snd, makedirs_files,
    makedirs_root]
  have hq : requestedStart fs s m = some (lastDate (readCsv csv) + 1) := by
    unfold requestedStart; rw [hst]
  rw [← storedSeries_def, requestedStart_fold, hq, h, hst]
  simp [_download_historical_data, hne]

/-- Writing to the canonical path makes that content the stored series, as
long as the root directory is unchanged. -/
lemma storedSeries_write {fs fs' : Warehouse} (s m : String) (df : List CsvRow)
    (hroot : fs'.root_dir = fs.root_dir) :
    storedSeries (writeFile (pathFor fs.root_dir s m) df fs') s m =
      some df := by
  unfold storedSeries
  simp [writeFile, hroot, fileLookup]

/-- Whatever the provider does, the updater either performs no write (it
only ensures the market directory) or rewrites the canonical file. -/
lemma update_fst_cases (p : Provider) (fs : Warehouse) (s m : String)
    (t : Nat) :
    (update_historical_data p fs s m t).1 =
        makedirs (fs.root_dir ++ "/" ++ m) fs ∨
      ∃ df, (update_historical_data p fs s m t).1 =
        writeFile (pathFor fs.root_dir s m) df
          (makedirs (fs.root_dir ++ "/" ++ m) fs) := by
  rcases hp : p (fullTicker s m) (requestedStart fs s m) t with e | raw
  · left; rw [update_of_error hp]
  · rcases hraw : raw with _ | ⟨r, rs⟩
    · left
      rw [hraw] at hp
      rw [update_of_empty hp]
    · rw [hraw] at hp
      have hne : r :: rs ≠ [] := by simp
      rcases hst : storedSeries fs s m with _ | csv
      · right
        have hq : requestedStart fs s m = none := by
          unfold requestedStart; rw [hst]
        rw [hq] at hp
        exact ⟨_, by rw [update_of_ok_none hst hp hne]⟩
      · right
        have hq : requestedStart fs s m =
            some (lastDate (readCsv csv) + 1) := by
          unfold requestedStart; rw [hst]
        rw [hq] at hp
        exact ⟨_, by rw [update_of_ok_some hst hp hne]⟩

/-- The updater never changes the configured root directory. -/
lemma update_root (p : Provider) (fs : Warehouse) (s m : String) (t : Nat) :
    (update_historical_data p fs s m t).1.root_dir = fs.root_dir := by
  rcases update_fst_cases p fs s m t with h | ⟨df, h⟩ <;> rw [h] <;> simp

/-- After any update, the market directory exists. -/
lemma mem_dirs_update (p : Provider) (fs : Warehouse) (s m : String)
    (t : Nat) :
    (fs.root_dir ++ "/" ++ m) ∈ (update_historical_data p fs s m t).1.dirs := by
  rcases update_fst_cases p fs s m t with h | ⟨df, h⟩ <;> rw [h]
  · exact mem_dirs_makedirs _ _
  · rw [writeFile_dirs]
    exact mem_dirs_makedirs _ _

/-! ### Properties of the keep-last deduplication and of serialisation -/

/-- A frame with pairwise-distinct index values is unchanged by
deduplication. -/
lemma dedupKeepLast_eq_self : ∀ {l : List Row},
    (keys l).Nodup → dedupKeepLast l = l := by
  intro l
  induction l with
  | nil => intro _; rfl
  | cons a rest ih =>
    intro h
    simp only [keys, List.map_cons, List.nodup_cons] at h
    have hno : rest.any (fun c => c.key == a.key) = false := by
      rw [List.any_eq_false]
      intro c hc
      simp only [beq_iff_eq]
      intro hce
      exact h.1 (List.mem_map.mpr ⟨c, hc, hce⟩)
    simp only [dedupKeepLast, hno]
    simp [ih h.2]

/-- Reading a CSV yields string-kind index values. -/
lemma keys_readCsv (csv : List CsvRow) :
    keys (readCsv csv) = csv.map fun c => IndexKey.str c.key := by
  simp [keys, readCsv, List.map_map]

/-- Renamed provider rows carry Timestamp-kind index values. -/
lemma keys_map_rename (raw : List RawBar) :
    keys (raw.map renameColumns) = raw.map fun r => IndexKey.ts r.date := by
  simp [keys, renameColumns, List.map_map]

/-- Serialising rows that were read from CSV gives back the CSV. -/
lemma writeCsv_readCsv (csv : List CsvRow) : writeCsv (readCsv csv) = csv := by
  unfold writeCsv readCsv
  rw [List.map_map]
  exact List.map_id csv

/-- Serialisation distributes over concatenation. -/
lemma writeCsv_append (a b : List Row) :
    writeCsv (a ++ b) = writeCsv a ++ writeCsv b := by
  unfold writeCsv
  exact List.map_append _ a b

/-- Serialising renamed provider rows writes each date as text. -/
lemma writeCsv_rename (raw : List RawBar) :
    writeCsv (raw.map renameColumns) =
      raw.map fun r =>
        CsvRow.mk (dateStr r.date) r.Open r.High r.Low r.Close r.Volume := by
  unfold writeCsv renameColumns
  rw [List.map_map]
  rfl

/-- Strictly date-sorted CSV rows have pairwise-distinct string keys. -/
lemma nodup_str_keys_of_sorted {csv : List CsvRow} (h : sortedAsc csv) :
    (csv.map fun c => IndexKey.str c.key).Nodup := by
  refine List.pairwise_map.mpr (h.imp ?_)
  intro a b hab hc
  injection hc with hkey
  rw [hkey] at hab
  exact lt_irrefl _ hab

/-- Strictly date-sorted provider rows have pairwise-distinct Timestamp
keys. -/
lemma nodup_ts_keys_of_sorted {raw : List RawBar} (h : fetchSorted raw) :
    (raw.map fun r => IndexKey.ts r.date).Nodup := by
  refine List.pairwise_map.mpr (h.imp ?_)
  intro a b hab hc
  injection hc with hkey
  rw [hkey] at hab
  exact lt_irrefl _ hab

/-- Sortedness of a stored prefix followed by freshly written fetched
rows, under the conditions of a normal incremental run. -/
lemma sortedAsc_append_mapped {csv : List CsvRow} {raw : List RawBar}
    (hc : sortedAsc csv) (hr : fetchSorted raw)
    (hcross : ∀ a ∈ csv, ∀ r ∈ raw, parseDate a.key < r.date) :
    sortedAsc (csv ++ raw.map fun r =>
      CsvRow.mk (dateStr r.date) r.Open r.High r.Low r.Close r.Volume) := by
  unfold sortedAsc
  rw [List.pairwise_append]
  refine ⟨hc, ?_, ?_⟩
  · rw [List.pairwise_map]
    refine hr.imp ?_
    intro a b hab
    simpa [parseDate_dateStr] using hab
  · intro a ha b hb
    rcases List.mem_map.mp hb with ⟨r, hrm, rfl⟩
    simpa [parseDate_dateStr] using hcross a ha r hrm

/-- One message list is produced per processed pair. -/
lemma batch_go_length (p : Provider) (t : Nat) :
    ∀ (l : List (String × String)) (fs : Warehouse),
      ((batch_go p t l fs).2).length = l.length := by
  intro l
  induction l with
  | nil => intro fs; rfl
  | cons sm rest ih =>
    intro fs
    simp only [batch_go, List.length_cons]
    rw [ih]

/-- Processing a nonempty batch: one update for the head pair, then the
rest of the batch runs on the resulting warehouse. -/
lemma batch_update_cons (p : Provider) (fs : Warehouse) (s m : String)
    (ss ms : List String) (t : Nat) :
    batch_update p fs (s :: ss) (m :: ms) t =
      ((batch_update p (update_historical_data p fs s m t).1 ss ms t).1,
        (update_historical_data p fs s m t).2 ::
          (batch_update p (update_historical_data p fs s m t).1 ss ms t).2) :=
  rfl

/-- Python `zip` silently truncates to the shorter input. -/
lemma zip_truncates {α β : Type} (l : List α) (l' : List β) :
    l.zip l' =
      (l.take (min l.length l'.length)).zip
        (l'.take (min l.length l'.length)) := by
  conv_lhs => rw [← List.take_of_length_le (le_of_eq (List.length_zip l l'))]
  rw [List.zip_eq_zipWith, List.take_zipWith, ← List.zip_eq_zipWith]

/-! ### The claims -/

/-- Claim C1 names a property the code does not have.  Stored days 1..5
(string index, as a prior run wrote them) and fetched days 4..7 with a
revised day-4 close: line 76 reads the CSV without `parse_dates`, so the
stored index is strings while the fetch carries Timestamps, and line 97's
`index.duplicated(keep='last')` never pairs a stored row with a fetched
row.  The persisted file keeps all nine rows — the old day-4 and day-5
bars are retained next to the new ones — with duplicated dates, out of
ascending order, instead of exactly D1..D7 with the fetched bars winning. -/
theorem C1_parse_dates_bug :
    storedSeries (update_historical_data
        (fun _ _ _ => .ok [⟨4, 0, 0, 0, 44, 0⟩, ⟨5, 0, 0, 0, 55, 0⟩,
          ⟨6, 0, 0, 0, 60, 0⟩, ⟨7, 0, 0, 0, 70, 0⟩])
        ⟨"stock_data", ["stock_data"],
          [("stock_data/US/AAPL.csv",
            [⟨dateStr 1, 0, 0, 0, 10, 0⟩, ⟨dateStr 2, 0, 0, 0, 20, 0⟩,
             ⟨dateStr 3, 0, 0, 0, 30, 0⟩, ⟨dateStr 4, 0, 0, 0, 40, 0⟩,
             ⟨dateStr 5, 0, 0, 0, 50, 0⟩])]⟩
        "AAPL" "US" 9).1 "AAPL" "US" =
      some [⟨dateStr 1, 0, 0, 0, 10, 0⟩, ⟨dateStr 2, 0, 0, 0, 20, 0⟩,
        ⟨dateStr 3, 0, 0, 0, 30, 0⟩, ⟨dateStr 4, 0, 0, 0, 40, 0⟩,
        ⟨dateStr 5, 0, 0, 0, 50, 0⟩, ⟨dateStr 4, 0, 0, 0, 44, 0⟩,
        ⟨dateStr 5, 0, 0, 0, 55, 0⟩, ⟨dateStr 6, 0, 0, 0, 60, 0⟩,
        ⟨dateStr 7, 0, 0, 0, 70, 0⟩] ∧
    csvDates [⟨dateStr 1, 0, 0, 0, 10, 0⟩, ⟨dateStr 2, 0, 0, 0, 20, 0⟩,
        ⟨dateStr 3, 0, 0, 0, 30, 0⟩, ⟨dateStr 4, 0, 0, 0, 40, 0⟩,
        ⟨dateStr 5, 0, 0, 0, 50, 0⟩, ⟨dateStr 4, 0, 0, 0, 44, 0⟩,
        ⟨dateStr 5, 0, 0, 0, 55, 0⟩, ⟨dateStr 6, 0, 0, 0, 60, 0⟩,
        ⟨dateStr 7, 0, 0, 0, 70, 0⟩] = [1, 2, 3, 4, 5, 4, 5, 6, 7] ∧
    ¬ (csvDates [⟨dateStr 1, 0, 0, 0, 10, 0⟩, ⟨dateStr 2, 0, 0, 0, 20, 0⟩,
        ⟨dateStr 3, 0, 0, 0, 30, 0⟩, ⟨dateStr 4, 0, 0, 0, 40, 0⟩,
        ⟨dateStr 5, 0, 0, 0, 50, 0⟩, ⟨dateStr 4, 0, 0, 0, 44, 0⟩,
        ⟨dateStr 5, 0, 0, 0, 55, 0⟩, ⟨dateStr 6, 0, 0, 0, 60, 0⟩,
        ⟨dateStr 7, 0, 0, 0, 70, 0⟩]).Nodup :=
  ⟨rfl, by decide, by decide⟩

/-- Claim C3 names an invariant the code does not maintain.  A stored file
holding the day-7 bar plus a fetch returning a revised day-7 bar persists
two rows dated day 7: the string-indexed stored row and the
Timestamp-indexed fetched row (line 76 omits `parse_dates`, defeating
line 97's dedup across the two sources). -/
theorem C3_parse_dates_bug :
    storedSeries (update_historical_data
        (fun _ _ _ => .ok [⟨7, 0, 0, 0, 9, 0⟩])
        ⟨"stock_data", ["stock_data"],
          [("stock_data/US/AAPL.csv", [⟨dateStr 7, 0, 0, 0, 1, 0⟩])]⟩
        "AAPL" "US" 9).1 "AAPL" "US" =
      some [⟨dateStr 7, 0, 0, 0, 1, 0⟩, ⟨dateStr 7, 0, 0, 0, 9, 0⟩] ∧
    csvDates [⟨dateStr 7, 0, 0, 0, 1, 0⟩, ⟨dateStr 7, 0, 0, 0, 9, 0⟩] =
      [7, 7] ∧
    ¬ (csvDates [⟨dateStr 7, 0, 0, 0, 1, 0⟩,
        ⟨dateStr 7, 0, 0, 0, 9, 0⟩]).Nodup :=
  ⟨rfl, by decide, by decide⟩

/-- C2 counterexample: the merge never sorts.  If the provider returns a
bar dated before the stored data (here: stored day 2, fetched day 1), the
persisted series is `[day 2, day 1]` — not ascending. -/
theorem C2_counterexample :
    storedSeries (update_historical_data
        (fun _ _ _ => .ok [⟨1, 0, 0, 0, 1, 0⟩])
        ⟨"stock_data", ["stock_data"],
          [("stock_data/US/AAPL.csv", [⟨dateStr 2, 0, 0, 0, 2, 0⟩])]⟩
        "AAPL" "US" 5).1 "AAPL" "US" =
      some [⟨dateStr 2, 0, 0, 0, 2, 0⟩, ⟨dateStr 1, 0, 0, 0, 1, 0⟩] ∧
    ¬ sortedAsc [⟨dateStr 2, 0, 0, 0, 2, 0⟩, ⟨dateStr 1, 0, 0, 0, 1, 0⟩] :=
  ⟨rfl, by decide⟩

/-- C2 as amended: after an update that writes, the persisted series is
sorted ascending by date provided the fetched rows are sorted ascending
and every date of the prior file content (if any, itself sorted) is
strictly before every fetched date — the situation of a normal
incremental run, where the fetch starts after the last stored date.  The
unconditional claim fails (see the counterexample), and a refetched
overlapping date would also break it: the stored string row and the
fetched Timestamp row both survive the dedup (`C3_parse_dates_bug`), so
overlap is excluded here. -/
theorem C2_sorted_after_update (p : Provider) (fs : Warehouse)
    (s m : String) (t : Nat) (raw : List RawBar)
    (hp : p (fullTicker s m) (requestedStart fs s m) t = .ok raw)
    (hne : raw ≠ [])
    (hnew : fetchSorted raw)
    (hold : ∀ csv, storedSeries fs s m = some csv → sortedAsc csv ∧
      ∀ a ∈ csv, ∀ r ∈ raw, parseDate a.key < r.date) :
    ∃ out, storedSeries (update_historical_data p fs s m t).1 s m =
        some out ∧ sortedAsc out := by
  rcases hst : storedSeries fs s m with _ | csv
  · have hq : requestedStart fs s m = none := by
      unfold requestedStart; rw [hst]
    rw [hq] at hp
    have hkeys : (keys (raw.map renameColumns)).Nodup := by
      rw [keys_map_rename]
      exact nodup_ts_keys_of_sorted hnew
    refine ⟨writeCsv (dedupKeepLast (raw.map renameColumns)), ?_, ?_⟩
    · rw [update_of_ok_none hst hp hne]
      exact storedSeries_write s m _ (by simp)
    · rw [dedupKeepLast_eq_self hkeys, writeCsv_rename]
      have := sortedAsc_append_mapped
        (show sortedAsc [] from List.Pairwise.nil) hnew
        (by intro a ha; cases ha)
      simpa using this
  · have hq : requestedStart fs s m =
        some (lastDate (readCsv csv) + 1) := by
      unfold requestedStart; rw [hst]
    rw [hq] at hp
    have hcsv := hold csv hst
    have hkeys : (keys (readCsv csv ++ raw.map renameColumns)).Nodup := by
      unfold keys
      rw [List.map_append]
      rw [show List.map Row.key (readCsv csv) =
        csv.map fun c => IndexKey.str c.key from keys_readCsv csv]
      rw [show List.map Row.key (raw.map renameColumns) =
        raw.map fun r => IndexKey.ts r.date from keys_map_rename raw]
      refine List.Nodup.append (nodup_str_keys_of_sorted hcsv.1)
        (nodup_ts_keys_of_sorted hnew) ?_
      intro x hx hy
      rcases List.mem_map.mp hx with ⟨c, _, rfl⟩
      rcases List.mem_map.mp hy with ⟨r, _, hr⟩
      exact IndexKey.noConfusion hr
    refine ⟨writeCsv (dedupKeepLast (readCsv csv ++ raw.map renameColumns)),
      ?_, ?_⟩
    · rw [update_of_ok_some hst hp hne]
      exact storedSeries_write s m _ (by simp)
    · rw [dedupKeepLast_eq_self hkeys, writeCsv_append, writeCsv_readCsv,
        writeCsv_rename]
      exact sortedAsc_append_mapped hcsv.1 hnew hcsv.2

/-- C2 witness at a concrete input: stored days 1 and 2, fetched days 3
and 4; the persisted series is sorted. -/
theorem C2_sorted_after_update_witness :
    ∃ out, storedSeries
        (update_historical_data
          (fun _ _ _ => .ok [⟨3, 0, 0, 0, 3, 0⟩, ⟨4, 0, 0, 0, 4, 0⟩])
          ⟨"stock_data", ["stock_data"],
            [("stock_data/US/AAPL.csv",
              [⟨dateStr 1, 0, 0, 0, 1, 0⟩, ⟨dateStr 2, 0, 0, 0, 2, 0⟩])]⟩
          "AAPL" "US" 9).1 "AAPL" "US" = some out ∧ sortedAsc out :=
  C2_sorted_after_update
    (fun _ _ _ => .ok [⟨3, 0, 0, 0, 3, 0⟩, ⟨4, 0, 0, 0, 4, 0⟩])
    ⟨"stock_data", ["stock_data"],
      [("stock_data/US/AAPL.csv",
        [⟨dateStr 1, 0, 0, 0, 1, 0⟩, ⟨dateStr 2, 0, 0, 0, 2, 0⟩])]⟩
    "AAPL" "US" 9 [⟨3, 0, 0, 0, 3, 0⟩, ⟨4, 0, 0, 0, 4, 0⟩]
    rfl (by decide) (by decide)
    (by intro csv hcsv
        have : csv = [⟨dateStr 1, 0, 0, 0, 1, 0⟩, ⟨dateStr 2, 0, 0, 0, 2, 0⟩] := by
          injection hcsv with h
          exact h.symm
        subst this
        exact ⟨by decide, by decide⟩)

/-- C4: running the updater twice for the same identifier, with the second
fetch empty or absent, leaves the whole warehouse (in particular the stored
file, byte for byte) exactly as it was after the first call. -/
theorem C4_idempotent_no_new_data (p1 p2 : Provider) (fs : Warehouse)
    (s m : String) (t1 t2 : Nat)
    (h : ∀ st, p2 (fullTicker s m) st t2 = .ok [] ∨
      ∃ e, p2 (fullTicker s m) st t2 = .error e) :
    (update_historical_data p2
        (update_historical_data p1 fs s m t1).1 s m t2).1 =
      (update_historical_data p1 fs s m t1).1 := by
  set fs1 := (update_historical_data p1 fs s m t1).1 with hfs1
  have hroot : fs1.root_dir = fs.root_dir := update_root p1 fs s m t1
  have hdir : (fs1.root_dir ++ "/" ++ m) ∈ fs1.dirs := by
    rw [hroot]; exact mem_dirs_update p1 fs s m t1
  rcases h (requestedStart fs1 s m) with h2 | ⟨e, h2⟩
  · rw [update_of_empty h2]
    exact makedirs_of_mem hdir
  · rw [update_of_error h2]
    exact makedirs_of_mem hdir

/-- C4 witness at a concrete input: a first call that stores two rows, then
a second call whose fetch is empty. -/
theorem C4_idempotent_no_new_data_witness :
    (update_historical_data (fun _ _ _ => .ok [])
        (update_historical_data
          (fun _ _ _ => .ok [⟨1, 0, 0, 0, 0, 0⟩, ⟨2, 0, 0, 0, 0, 0⟩])
          (Warehouse.init "stock_data") "AAPL" "US" 3).1 "AAPL" "US" 4).1 =
      (update_historical_data
        (fun _ _ _ => .ok [⟨1, 0, 0, 0, 0, 0⟩, ⟨2, 0, 0, 0, 0, 0⟩])
        (Warehouse.init "stock_data") "AAPL" "US" 3).1 :=
  C4_idempotent_no_new_data
    (fun _ _ _ => .ok [⟨1, 0, 0, 0, 0, 0⟩, ⟨2, 0, 0, 0, 0, 0⟩])
    (fun _ _ _ => .ok []) (Warehouse.init "stock_data") "AAPL" "US" 3 4
    (fun _ => Or.inl rfl)

/-- C5: when the fetch yields zero rows or is absent (a caught provider
error), the stored files are untouched — no write happens — and the last
reported message is exactly the "no new data" report for that symbol. -/
theorem C5_empty_fetch_no_write (p : Provider) (fs : Warehouse)
    (s m : String) (t : Nat)
    (h : p (fullTicker s m) (requestedStart fs s m) t = .ok [] ∨
      ∃ e, p (fullTicker s m) (requestedStart fs s m) t = .error e) :
    (update_historical_data p fs s m t).1.files = fs.files ∧
      ((update_historical_data p fs s m t).2).getLast? =
        some ("No new data for " ++ s) := by
  rcases h with h | ⟨e, h⟩
  · rw [update_of_empty h]
    exact ⟨by simp, rfl⟩
  · rw [update_of_error h]
    exact ⟨by simp, rfl⟩

/-- C5 witness at a concrete input: an empty fetch for a warehouse already
holding a file. -/
theorem C5_empty_fetch_no_write_witness :
    (update_historical_data (fun _ _ _ => .ok [])
        ⟨"stock_data", ["stock_data"],
          [("stock_data/US/AAPL.csv", [⟨dateStr 1, 0, 0, 0, 0, 0⟩])]⟩
        "AAPL" "US" 9).1.files =
      [("stock_data/US/AAPL.csv", [⟨dateStr 1, 0, 0, 0, 0, 0⟩])] ∧
    ((update_historical_data (fun _ _ _ => .ok [])
        ⟨"stock_data", ["stock_data"],
          [("stock_data/US/AAPL.csv", [⟨dateStr 1, 0, 0, 0, 0, 0⟩])]⟩
        "AAPL" "US" 9).2).getLast? = some ("No new data for " ++ "AAPL") :=
  C5_empty_fetch_no_write (fun _ _ _ => .ok [])
    ⟨"stock_data", ["stock_data"],
      [("stock_data/US/AAPL.csv", [⟨dateStr 1, 0, 0, 0, 0, 0⟩])]⟩
    "AAPL" "US" 9 (Or.inl rfl)

/-- C6: a provider exception inside the historical fetch or the intraday
fetch is caught at the fetch boundary: a message is reported and the call
returns an absent result; a successful provider call yields the data. In
this total embedding, raised provider exceptions are `Except.error` inputs
and neither function can propagate them. -/
theorem C6_fetch_errors_caught (tk s m period e : String)
    (raw : List RawBar) (intr : List MinuteBar) :
    _download_historical_data tk (.error e) =
        (none, ["Error downloading " ++ tk ++ ": " ++ e]) ∧
      get_realtime_data s m period (.error e) =
        (none, ["Error fetching realtime data: " ++ e]) ∧
      _download_historical_data tk (.ok raw) =
        (some (raw.map renameColumns), []) ∧
      get_realtime_data s m period (.ok intr) = (some intr, []) :=
  ⟨rfl, rfl, rfl, rfl⟩

/-- C7: the updater consults the provider only at the requested arguments
(ticker, `requestedStart`, today); when a file is stored the requested
start is `pd.to_datetime` of the last stored row's index plus one day;
when no file is stored the requested start is absent and a nonempty fetch
creates the file holding exactly the fetched data after (within-fetch)
deduplication. -/
theorem C7_fetch_start_and_first_run (fs : Warehouse) (s m : String)
    (t : Nat) :
    (∀ p q : Provider,
      p (fullTicker s m) (requestedStart fs s m) t =
        q (fullTicker s m) (requestedStart fs s m) t →
      update_historical_data p fs s m t = update_historical_data q fs s m t) ∧
    (∀ ys b, storedSeries fs s m = some (ys ++ [b]) →
      requestedStart fs s m = some (parseDate b.key + 1)) ∧
    (storedSeries fs s m = none →
      requestedStart fs s m = none ∧
      ∀ (p : Provider) raw, p (fullTicker s m) none t = .ok raw → raw ≠ [] →
        storedSeries (update_historical_data p fs s m t).1 s m =
          some (writeCsv (dedupKeepLast (raw.map renameColumns)))) := by
  refine ⟨?_, ?_, ?_⟩
  · intro p q hpq
    rcases hp : p (fullTicker s m) (requestedStart fs s m) t with e | raw
    · rw [update_of_error hp, update_of_error (hpq ▸ hp)]
    · rcases hraw : raw with _ | ⟨r, rs⟩
      · rw [hraw] at hp
        rw [update_of_empty hp, update_of_empty (hpq ▸ hp)]
      · rw [hraw] at hp
        have hne : r :: rs ≠ [] := by simp
        rcases hst : storedSeries fs s m with _ | csv
        · have hq : requestedStart fs s m = none := by
            unfold requestedStart; rw [hst]
          rw [hq] at hp hpq
          rw [update_of_ok_none hst hp hne,
            update_of_ok_none hst (hpq ▸ hp) hne]
        · have hq : requestedStart fs s m =
              some (lastDate (readCsv csv) + 1) := by
            unfold requestedStart; rw [hst]
          rw [hq] at hp hpq
          rw [update_of_ok_some hst hp hne,
            update_of_ok_some hst (hpq ▸ hp) hne]
  · intro ys b hst
    unfold requestedStart
    rw [hst]
    simp [readCsv, lastDate, toDatetime, List.getLast?_concat]
  · intro hst
    have hq : requestedStart fs s m = none := by
      unfold requestedStart; rw [hst]
    refine ⟨hq, ?_⟩
    intro p raw hp hne
    rw [update_of_ok_none hst hp hne]
    exact storedSeries_write s m _ (by simp)

/-- C7 witness at a concrete input: with no stored file, the requested
start is absent and the created file holds exactly the deduplicated fetch;
with a stored file ending on day 5, the requested start is day 6. -/
theorem C7_fetch_start_and_first_run_witness :
    requestedStart (Warehouse.init "stock_data") "AAPL" "US" = none ∧
    storedSeries (update_historical_data
        (fun _ _ _ => .ok [⟨3, 0, 0, 0, 0, 0⟩])
        (Warehouse.init "stock_data") "AAPL" "US" 9).1 "AAPL" "US" =
      some (writeCsv (dedupKeepLast
        (List.map renameColumns [⟨3, 0, 0, 0, 0, 0⟩]))) ∧
    requestedStart
        ⟨"stock_data", ["stock_data"],
          [("stock_data/US/AAPL.csv",
            [⟨dateStr 4, 0, 0, 0, 0, 0⟩, ⟨dateStr 5, 0, 0, 0, 0, 0⟩])]⟩
        "AAPL" "US" = some (parseDate (dateStr 5) + 1) := by
  refine ⟨?_, ?_, ?_⟩
  · exact ((C7_fetch_start_and_first_run (Warehouse.init "stock_data")
      "AAPL" "US" 9).2.2 rfl).1
  · exact ((C7_fetch_start_and_first_run (Warehouse.init "stock_data")
      "AAPL" "US" 9).2.2 rfl).2 (fun _ _ _ => .ok [⟨3, 0, 0, 0, 0, 0⟩])
      [⟨3, 0, 0, 0, 0, 0⟩] rfl (by decide)
  · exact (C7_fetch_start_and_first_run
      ⟨"stock_data", ["stock_data"],
        [("stock_data/US/AAPL.csv",
          [⟨dateStr 4, 0, 0, 0, 0, 0⟩, ⟨dateStr 5, 0, 0, 0, 0, 0⟩])]⟩
      "AAPL" "US" 9).2.1 [⟨dateStr 4, 0, 0, 0, 0, 0⟩]
      ⟨dateStr 5, 0, 0, 0, 0, 0⟩ rfl

/-- C8: for every batch, every warehouse and every provider: one per-pair
report is produced per zipped (symbol, market) pair; a nonempty batch is
processed sequentially in input order — the head pair's update runs first
and the rest of the batch runs on the resulting warehouse, whatever the
head's outcome; a pair whose fetch raises contributes only its caught
error report and leaves every stored file unchanged, so the remaining
pairs are processed exactly as they would be from the same files; and any
pair whose fetch succeeds with data gets its file written. -/
theorem C8_batch_failure_isolation (p : Provider) (t : Nat) :
    (∀ (fs : Warehouse) (symbol_list markets : List String),
      ((batch_update p fs symbol_list markets t).2).length =
        (symbol_list.zip markets).length) ∧
    (∀ (fs : Warehouse) (s m : String) (ss ms : List String),
      batch_update p fs (s :: ss) (m :: ms) t =
        ((batch_update p (update_historical_data p fs s m t).1 ss ms t).1,
          (update_historical_data p fs s m t).2 ::
            (batch_update p (update_historical_data p fs s m t).1 ss ms t).2)) ∧
    (∀ (fs : Warehouse) (s m : String) (ss ms : List String) (e : String),
      (∀ st, p (fullTicker s m) st t = .error e) →
      (batch_update p fs (s :: ss) (m :: ms) t).1 =
          (batch_update p (makedirs (fs.root_dir ++ "/" ++ m) fs) ss ms t).1 ∧
        (batch_update p fs (s :: ss) (m :: ms) t).2 =
          (["Error downloading " ++ fullTicker s m ++ ": " ++ e,
            "No new data for " ++ s]) ::
            (batch_update p (makedirs (fs.root_dir ++ "/" ++ m) fs) ss ms t).2 ∧
        (makedirs (fs.root_dir ++ "/" ++ m) fs).files = fs.files) ∧
    (∀ (fs : Warehouse) (s m : String) (raw : List RawBar),
      p (fullTicker s m) (requestedStart fs s m) t = .ok raw → raw ≠ [] →
      ∃ out, storedSeries (update_historical_data p fs s m t).1 s m =
        some out) := by
  refine ⟨?_, ?_, ?_, ?_⟩
  · intro fs symbol_list markets
    exact batch_go_length p t (symbol_list.zip markets) fs
  · intro fs s m ss ms
    exact batch_update_cons p fs s m ss ms t
  · intro fs s m ss ms e h
    have e1 := update_of_error (h (requestedStart fs s m))
    refine ⟨?_, ?_, by simp⟩
    · rw [batch_update_cons, e1]
    · rw [batch_update_cons, e1]
  · intro fs s m raw hp hne
    rcases hst : storedSeries fs s m with _ | csv
    · have hq : requestedStart fs s m = none := by
        unfold requestedStart; rw [hst]
      rw [hq] at hp
      refine ⟨writeCsv (dedupKeepLast (raw.map renameColumns)), ?_⟩
      rw [update_of_ok_none hst hp hne]
      exact storedSeries_write s m _ (by simp)
    · have hq : requestedStart fs s m =
          some (lastDate (readCsv csv) + 1) := by
        unfold requestedStart; rw [hst]
      rw [hq] at hp
      refine ⟨writeCsv (dedupKeepLast (readCsv csv ++ raw.map renameColumns)), ?_⟩
      rw [update_of_ok_some hst hp hne]
      exact storedSeries_write s m _ (by simp)

/-- C8 witness at a concrete input: a provider that raises for MSFT and
returns one bar otherwise; the failing head pair only reports its error
and changes no file, and a succeeding pair's file is written. -/
theorem C8_batch_failure_isolation_witness :
    ((batch_update
        (fun tk _ _ => if tk = "MSFT" then .error "network error"
          else .ok [(⟨1, 0, 0, 0, 0, 0⟩ : RawBar)])
        (Warehouse.init "stock_data") ("MSFT" :: ["GOOG"]) ("US" :: ["US"]) 9).1 =
        (batch_update
          (fun tk _ _ => if tk = "MSFT" then .error "network error"
            else .ok [(⟨1, 0, 0, 0, 0, 0⟩ : RawBar)])
          (makedirs ((Warehouse.init "stock_data").root_dir ++ "/" ++ "US")
            (Warehouse.init "stock_data")) ["GOOG"] ["US"] 9).1 ∧
      (batch_update
        (fun tk _ _ => if tk = "MSFT" then .error "network error"
          else .ok [(⟨1, 0, 0, 0, 0, 0⟩ : RawBar)])
        (Warehouse.init "stock_data") ("MSFT" :: ["GOOG"]) ("US" :: ["US"]) 9).2 =
        (["Error downloading " ++ fullTicker "MSFT" "US" ++ ": " ++ "network error",
          "No new data for " ++ "MSFT"]) ::
          (batch_update
            (fun tk _ _ => if tk = "MSFT" then .error "network error"
              else .ok [(⟨1, 0, 0, 0, 0, 0⟩ : RawBar)])
            (makedirs ((Warehouse.init "stock_data").root_dir ++ "/" ++ "US")
              (Warehouse.init "stock_data")) ["GOOG"] ["US"] 9).2 ∧
      (makedirs ((Warehouse.init "stock_data").root_dir ++ "/" ++ "US")
        (Warehouse.init "stock_data")).files = (Warehouse.init "stock_data").files) ∧
    (∃ out, storedSeries (update_historical_data
        (fun tk _ _ => if tk = "MSFT" then .error "network error"
          else .ok [(⟨1, 0, 0, 0, 0, 0⟩ : RawBar)])
        (Warehouse.init "stock_data") "GOOG" "US" 9).1 "GOOG" "US" = some out) :=
  ⟨(C8_batch_failure_isolation
      (fun tk _ _ => if tk = "MSFT" then .error "network error"
        else .ok [(⟨1, 0, 0, 0, 0, 0⟩ : RawBar)]) 9).2.2.1
      (Warehouse.init "stock_data") "MSFT" "US" ["GOOG"] ["US"]
      "network error" (fun _ => rfl),
    (C8_batch_failure_isolation
      (fun tk _ _ => if tk = "MSFT" then .error "network error"
        else .ok [(⟨1, 0, 0, 0, 0, 0⟩ : RawBar)]) 9).2.2.2
      (Warehouse.init "stock_data") "GOOG" "US" [⟨1, 0, 0, 0, 0, 0⟩]
      rfl (by simp)⟩

/-- C9 counterexample: the local reader is not mutation-free.  Reading a
symbol whose market directory does not yet exist creates that directory
(`os.makedirs` inside `_get_symbol_path`), changing the file system. -/
theorem C9_counterexample :
    (get_local_data (Warehouse.init "stock_data") "AAPL" "US").1 ≠
      Warehouse.init "stock_data" := by decide

/-- C9 as amended: the local reader never mutates any stored file or the
configured root (its only effect is creating the missing market directory
during path resolution). When the file exists it returns the series parsed
back with genuine dates and no message; when absent it returns an absent
result and reports "no local data". -/
theorem C9_local_reader (fs : Warehouse) (s m : String) :
    (get_local_data fs s m).1 = makedirs (fs.root_dir ++ "/" ++ m) fs ∧
      (get_local_data fs s m).1.files = fs.files ∧
      (get_local_data fs s m).1.root_dir = fs.root_dir ∧
      (∀ df, storedSeries fs s m = some df →
        (get_local_data fs s m).2 = (some (readCsvParsed df), [])) ∧
      (storedSeries fs s m = none →
        (get_local_data fs s m).2 =
          (none, ["No local data found for " ++ s ++ " in " ++ m])) := by
  have hfst : (get_local_data fs s m).1 =
      makedirs (fs.root_dir ++ "/" ++ m) fs := by
    unfold get_local_data
    simp only [_get_symbol_path_fst, _get_symbol_path_snd, makedirs_files,
      makedirs_root]
    rw [← storedSeries_def]
    rcases storedSeries fs s m with _ | df <;> rfl
  refine ⟨hfst, by rw [hfst]; simp, by rw [hfst]; simp, ?_, ?_⟩
  · intro df hdf
    unfold get_local_data
    simp only [_get_symbol_path_fst, _get_symbol_path_snd, makedirs_files,
      makedirs_root]
    rw [← storedSeries_def, hdf]
  · intro hdf
    unfold get_local_data
    simp only [_get_symbol_path_fst, _get_symbol_path_snd, makedirs_files,
      makedirs_root]
    rw [← storedSeries_def, hdf]

/-- C9 witness at a concrete input: reading a missing file reports "no
local data" and leaves the stored files unchanged; reading an existing
file returns it parsed. -/
theorem C9_local_reader_witness :
    (get_local_data (Warehouse.init "stock_data") "AAPL" "US").1.files =
        (Warehouse.init "stock_data").files ∧
      (get_local_data (Warehouse.init "stock_data") "AAPL" "US").2 =
        (none, ["No local data found for " ++ "AAPL" ++ " in " ++ "US"]) ∧
      (get_local_data
          ⟨"stock_data", ["stock_data"],
            [("stock_data/US/AAPL.csv", [⟨dateStr 3, 0, 0, 0, 0, 0⟩])]⟩
          "AAPL" "US").2 =
        (some (readCsvParsed [⟨dateStr 3, 0, 0, 0, 0, 0⟩]), []) :=
  ⟨(C9_local_reader (Warehouse.init "stock_data") "AAPL" "US").2.1,
    (C9_local_reader (Warehouse.init "stock_data") "AAPL" "US").2.2.2.2 rfl,
    (C9_local_reader
      ⟨"stock_data", ["stock_data"],
        [("stock_data/US/AAPL.csv", [⟨dateStr 3, 0, 0, 0, 0, 0⟩])]⟩
      "AAPL" "US").2.2.2.1 [⟨dateStr 3, 0, 0, 0, 0, 0⟩] rfl⟩

/-- C10: a batch run over symbol and market lists of unequal length raises
no error: it processes exactly the first `min` pairs, pairing by position
(the run equals the run on the truncated lists, and produces one per-pair
report for exactly `min` pairs). -/
theorem C10_batch_unequal_lengths (p : Provider) (fs : Warehouse)
    (symbol_list markets : List String) (t : Nat) :
    batch_update p fs symbol_list markets t =
        batch_update p fs
          (symbol_list.take (min symbol_list.length markets.length))
          (markets.take (min symbol_list.length markets.length)) t ∧
      ((batch_update p fs symbol_list markets t).2).length =
        min symbol_list.length markets.length := by
  constructor
  · unfold batch_update
    rw [← zip_truncates]
  · unfold batch_update
    rw [batch_go_length, List.length_zip]

end StockData
